import Mathlib

/-!
Verification of the ILI9488 display driver (`src/mipidsi/src/models/ili9488.rs`).

The driver is embedded shallowly: every transport interaction (command write,
raw register write, data payload, delay, reset-pin toggle) is recorded as an
event in a trace, and the transport collaborator is modelled by a failure
oracle `fail : Nat → Bool` telling whether the k-th dispatch attempt fails.
`init` and `write_pixels` are translated from the Rust source; the pieces of
the crate that are not part of the analysed source file (the DCS command
encodings, `hard_reset`, the MADCTL derivation from options) are modelled from
the specification and marked as such.
-/

namespace Mipidsi

/-- Caller-supplied rotation option (0/90/180/270 degrees). -/
inductive Rotation
  | deg0
  | deg90
  | deg180
  | deg270
deriving DecidableEq, Repr

/-- Caller-supplied RGB/BGR channel order option. -/
inductive ColorOrder
  | rgb
  | bgr
deriving DecidableEq, Repr

/-- Modelled from the spec: caller-supplied options, the configuration value
set of section 6: rotation, mirror, color inversion and color order (the
`ModelOptions` type of the crate is outside the analysed source file). -/
structure ModelOptions where
  rotation : Rotation
  mirrored : Bool
  invertColors : Bool
  colorOrder : ColorOrder
deriving DecidableEq, Repr

/-- Modelled from the spec: the Address/Orientation Mode bitfield (MADCTL),
derived deterministically from the caller options (rotation, mirroring,
color order); the `SetAddressMode::from(&ModelOptions)` derivation lives
outside the analysed source file. -/
def madctlFrom (o : ModelOptions) : Nat :=
  (match o.rotation with
    | .deg0 => 0x00
    | .deg90 => 0x60
    | .deg180 => 0xC0
    | .deg270 => 0xA0)
  ||| (if o.mirrored then 0x40 else 0x00)
  ||| (if o.colorOrder = .bgr then 0x08 else 0x00)

/-- Modelled from the spec: the Pixel Format Descriptor for `Rgb565` encodes
16 bits per pixel (`PixelFormat::with_all(BitsPerPixel::from_rgb_color::<Rgb565>())`
is outside the analysed source file). -/
def pixelFormatRgb565 : Nat := 16

/-- A DCS command value as sent through `Dcs::write_command`. Modelled from the
spec: the concrete command types live in the crate's `dcs` module, outside the
analysed source file; each carries its parameter, `SetInvertMode` the
inversion flag per the spec wording that options change only parameter bytes. -/
inductive Cmd
  | softReset
  | exitSleepMode
  | setPixelFormat (bpp : Nat)
  | setAddressMode (madctl : Nat)
  | setInvertMode (invert : Bool)
  | enterNormalMode
  | setDisplayOn
  | writeMemoryStart
deriving DecidableEq, Repr

/-- One observable interaction with the collaborators: a DCS command, a raw
register write (opcode plus parameter bytes), a data payload, a blocking
delay in microseconds, or a reset-pin transition. -/
inductive Event
  | cmd (c : Cmd)
  | raw (opcode : Nat) (params : List Nat)
  | data (bytes : List Nat)
  | delay (us : Nat)
  | pinLow
  | pinHigh
deriving DecidableEq, Repr

/-- Recorder state of the mock transport: the events sent so far and the
number of dispatch attempts made so far (the index the failure oracle is
consulted at). -/
structure DcsState where
  events : List Event
  nCmds : Nat
deriving DecidableEq, Repr

/-- Runtime error of the driver: a transport/bus failure wrapped as a command
failure (spec section 7 taxonomy). -/
inductive Error
  | commandFailure
deriving DecidableEq, Repr

/-- Initialization error: a reset-line failure is distinguished from a
bus/command failure (spec section 7 taxonomy). -/
inductive InitError
  | resetPin
  | commandFailure
deriving DecidableEq, Repr

/-- Dispatcher operation `Dcs::write_command`: consults the failure oracle at
the current dispatch index; on success records the command event. -/
def writeCommand (fail : Nat → Bool) (c : Cmd) (s : DcsState) :
    Except Error Unit × DcsState :=
  if fail s.nCmds then (.error .commandFailure, ⟨s.events, s.nCmds + 1⟩)
  else (.ok (), ⟨s.events ++ [.cmd c], s.nCmds + 1⟩)

/-- Dispatcher operation `Dcs::write_raw`: opcode plus parameter bytes as one
transaction. -/
def writeRaw (fail : Nat → Bool) (opcode : Nat) (params : List Nat)
    (s : DcsState) : Except Error Unit × DcsState :=
  if fail s.nCmds then (.error .commandFailure, ⟨s.events, s.nCmds + 1⟩)
  else (.ok (), ⟨s.events ++ [.raw opcode params], s.nCmds + 1⟩)

/-- Transport operation `send_data`: a data payload transaction. -/
def sendData (fail : Nat → Bool) (bytes : List Nat) (s : DcsState) :
    Except Error Unit × DcsState :=
  if fail s.nCmds then (.error .commandFailure, ⟨s.events, s.nCmds + 1⟩)
  else (.ok (), ⟨s.events ++ [.data bytes], s.nCmds + 1⟩)

/-- Delay collaborator `delay_us`: blocks, never fails, recorded in the trace. -/
def delayUs (us : Nat) (s : DcsState) : DcsState :=
  ⟨s.events ++ [.delay us], s.nCmds⟩

/-- Modelled from the spec: `Model::hard_reset` (outside the analysed source
file) toggles the reset line low then high with collaborator-defined hold
timing; a pin failure surfaces as the distinct reset-line error kind. -/
def hardReset (pinOk : Bool) (s : DcsState) : Except InitError Unit × DcsState :=
  if pinOk then (.ok (), ⟨s.events ++ [.pinLow, .delay 10, .pinHigh], s.nCmds⟩)
  else (.error .resetPin, s)

/-- Sequencing of two fallible dispatcher steps: the Rust `?` operator on a
`Result` inside `init_common` / `write_pixels`. -/
def stepThen {α : Type} (r : Except Error Unit × DcsState)
    (f : DcsState → Except Error α × DcsState) : Except Error α × DcsState :=
  match r with
  | (.ok _, s) => f s
  | (.error e, s) => (.error e, s)

/-- Sequencing at `InitError` type: the `?` operator inside `init`. -/
def stepThenI {α : Type} (r : Except InitError Unit × DcsState)
    (f : DcsState → Except InitError α × DcsState) :
    Except InitError α × DcsState :=
  match r with
  | (.ok _, s) => f s
  | (.error e, s) => (.error e, s)

/-- The `From<Error> for InitError` conversion applied by `?` in `init`: a
bus/command failure becomes `InitError::CommandFailure`. -/
def liftInit {α : Type} (r : Except Error α × DcsState) :
    Except InitError α × DcsState :=
  match r with
  | (.ok a, s) => (.ok a, s)
  | (.error _, s) => (.error .commandFailure, s)

/-- Positive-polarity gamma table written to register 0xE0 (source constants). -/
def gammaPos : List Nat :=
  [0x0, 0x13, 0x18, 0x04, 0x0F, 0x06, 0x3a, 0x56, 0x4d, 0x03, 0x0a, 0x06,
   0x30, 0x3e, 0x0f]

/-- Negative-polarity gamma table written to register 0xE1 (source constants). -/
def gammaNeg : List Nat :=
  [0x0, 0x13, 0x18, 0x01, 0x11, 0x06, 0x38, 0x34, 0x4d, 0x06, 0x0d, 0x0b,
   0x31, 0x37, 0x0f]

/-- Translation of `init_common` from the source: the fixed chain of command
writes, ending with the post-display-on settle delay, returning the MADCTL
value. -/
def initCommon (opts : ModelOptions) (pf : Nat) (fail : Nat → Bool)
    (s : DcsState) : Except Error Nat × DcsState :=
  stepThen (writeCommand fail .exitSleepMode s) fun s =>
  stepThen (writeCommand fail (.setPixelFormat pf) s) fun s =>
  stepThen (writeCommand fail (.setAddressMode (madctlFrom opts)) s) fun s =>
  stepThen (writeCommand fail (.setInvertMode opts.invertColors) s) fun s =>
  stepThen (writeRaw fail 0xc5 [0x00, 0x1e, 0x80, 0xb1] s) fun s =>
  stepThen (writeRaw fail 0xb1 [0xb0] s) fun s =>
  stepThen (writeRaw fail 0xe0 gammaPos s) fun s =>
  stepThen (writeRaw fail 0xe1 gammaNeg s) fun s =>
  stepThen (writeRaw fail 0xb6 [0x00, 0x42] s) fun s =>
  stepThen (writeCommand fail .enterNormalMode s) fun s =>
  stepThen (writeCommand fail .setDisplayOn s) fun s =>
  (Except.ok (madctlFrom opts), delayUs 120000 s)

/-- Reset handling of `init`: hardware reset through the supplied line, or the
`SoftReset` DCS command when no line is supplied. -/
def resetStep (hasRst pinOk : Bool) (fail : Nat → Bool) (s : DcsState) :
    Except InitError Unit × DcsState :=
  if hasRst then hardReset pinOk s
  else liftInit (writeCommand fail .softReset s)

/-- Translation of `ILI9488Rgb565::init` from the source: reset handling, the
120 ms settle delay, then `init_common` with the Rgb565 pixel format. -/
def init (opts : ModelOptions) (hasRst pinOk : Bool) (fail : Nat → Bool)
    (s0 : DcsState) : Except InitError Nat × DcsState :=
  stepThenI (resetStep hasRst pinOk fail s0) fun s =>
    liftInit (initCommon opts pixelFormatRgb565 fail (delayUs 120000 s))

/-- An Rgb565 pixel value (external `embedded_graphics` collaborator): three
channel components. -/
structure Rgb565 where
  r : Nat
  g : Nat
  b : Nat
deriving DecidableEq, Repr

/-- The u16 storage value of an Rgb565 pixel (`IntoStorage::into_storage`):
5-bit red in bits 11..15, 6-bit green in bits 5..10, 5-bit blue in bits 0..4. -/
def intoStorage (c : Rgb565) : Nat :=
  (c.r % 32) * 2048 + (c.g % 64) * 32 + (c.b % 32)

/-- Big-endian byte pair of a 16-bit value (`DataFormat::U16BEIter` wire
encoding). -/
def wireBytes (v : Nat) : List Nat :=
  [v / 256 % 256, v % 256]

/-- Big-endian byte stream of a list of 16-bit values. -/
def beBytes16 (vs : List Nat) : List Nat :=
  (vs.map wireBytes).flatten

/-- Translation of `ILI9488Rgb565::write_pixels` from the source: the
`WriteMemoryStart` command, then the pixels' storage values as one big-endian
16-bit data payload. -/
def writePixels (fail : Nat → Bool) (colors : List Rgb565) (s : DcsState) :
    Except Error Unit × DcsState :=
  stepThen (writeCommand fail .writeMemoryStart s) fun s =>
    sendData fail (beBytes16 (colors.map intoStorage)) s

/-- Events emitted by the reset handling of `init`. -/
def resetTrace (hasRst : Bool) : List Event :=
  if hasRst then [.pinLow, .delay 10, .pinHigh] else [.cmd .softReset]

/-- Events emitted by the command chain of `init_common`, before its final
settle delay. -/
def coreTrace (opts : ModelOptions) (pf : Nat) : List Event :=
  [.cmd .exitSleepMode, .cmd (.setPixelFormat pf),
   .cmd (.setAddressMode (madctlFrom opts)),
   .cmd (.setInvertMode opts.invertColors),
   .raw 0xc5 [0x00, 0x1e, 0x80, 0xb1], .raw 0xb1 [0xb0],
   .raw 0xe0 gammaPos, .raw 0xe1 gammaNeg, .raw 0xb6 [0x00, 0x42],
   .cmd .enterNormalMode, .cmd .setDisplayOn]

/-- The full event trace of a successful `init` run. -/
def initTrace (opts : ModelOptions) (hasRst : Bool) : List Event :=
  resetTrace hasRst ++ .delay 120000 ::
    (coreTrace opts pixelFormatRgb565 ++ [.delay 120000])

/-- Whether an event is a command dispatch (a DCS command or a raw register
write), as opposed to a delay, payload, or pin transition. -/
def isCmdEvent : Event → Bool
  | .cmd _ => true
  | .raw _ _ => true
  | _ => false

/-- The subsequence of command dispatches of a trace. -/
def cmdEvents (es : List Event) : List Event :=
  es.filter isCmdEvent

/-! ### Inversion lemmas for successful runs -/

lemma writeCommand_ok {fail : Nat → Bool} {c : Cmd} {s s1 : DcsState} {u : Unit}
    (h : writeCommand fail c s = (.ok u, s1)) :
    s1 = ⟨s.events ++ [.cmd c], s.nCmds + 1⟩ := by
  unfold writeCommand at h
  split at h
  · exact absurd h (by simp)
  · simpa using h.symm

lemma writeRaw_ok {fail : Nat → Bool} {op : Nat} {ps : List Nat}
    {s s1 : DcsState} {u : Unit}
    (h : writeRaw fail op ps s = (.ok u, s1)) :
    s1 = ⟨s.events ++ [.raw op ps], s.nCmds + 1⟩ := by
  unfold writeRaw at h
  split at h
  · exact absurd h (by simp)
  · simpa using h.symm

lemma sendData_ok {fail : Nat → Bool} {bs : List Nat} {s s1 : DcsState} {u : Unit}
    (h : sendData fail bs s = (.ok u, s1)) :
    s1 = ⟨s.events ++ [.data bs], s.nCmds + 1⟩ := by
  unfold sendData at h
  split at h
  · exact absurd h (by simp)
  · simpa using h.symm

lemma hardReset_ok {pinOk : Bool} {s s1 : DcsState} {u : Unit}
    (h : hardReset pinOk s = (.ok u, s1)) :
    s1 = ⟨s.events ++ [.pinLow, .delay 10, .pinHigh], s.nCmds⟩ := by
  unfold hardReset at h
  split at h
  · simpa using h.symm
  · exact absurd h (by simp)

lemma liftInit_ok {α : Type} {r : Except Error α × DcsState} {a : α}
    {s1 : DcsState} (h : liftInit r = (.ok a, s1)) : r = (.ok a, s1) := by
  obtain ⟨x, s⟩ := r
  cases x with
  | ok b => simpa [liftInit] using h
  | error e => exact absurd h (by simp [liftInit])

lemma stepThen_ok {α : Type} {r : Except Error Unit × DcsState}
    {f : DcsState → Except Error α × DcsState} {a : α} {s1 : DcsState}
    (h : stepThen r f = (.ok a, s1)) :
    ∃ s, r = (.ok (), s) ∧ f s = (.ok a, s1) := by
  obtain ⟨x, s⟩ := r
  cases x with
  | ok u => exact ⟨s, rfl, h⟩
  | error e => exact absurd h (by simp [stepThen])

lemma stepThenI_ok {α : Type} {r : Except InitError Unit × DcsState}
    {f : DcsState → Except InitError α × DcsState} {a : α} {s1 : DcsState}
    (h : stepThenI r f = (.ok a, s1)) :
    ∃ s, r = (.ok (), s) ∧ f s = (.ok a, s1) := by
  obtain ⟨x, s⟩ := r
  cases x with
  | ok u => exact ⟨s, rfl, h⟩
  | error e => exact absurd h (by simp [stepThenI])

lemma resetStep_ok {hasRst pinOk : Bool} {fail : Nat → Bool} {s s1 : DcsState}
    {u : Unit} (h : resetStep hasRst pinOk fail s = (.ok u, s1)) :
    s1.events = s.events ++ resetTrace hasRst := by
  unfold resetStep at h
  cases hasRst with
  | true =>
    rw [if_pos rfl] at h
    rw [hardReset_ok h, resetTrace]
    simp
  | false =>
    rw [if_neg (by simp)] at h
    have h2 := liftInit_ok h
    rw [writeCommand_ok h2, resetTrace]
    simp

/-- Characterization of a successful `init_common` run, for an arbitrary
failure oracle: the returned value is the MADCTL derived from the options and
the emitted events are exactly the fixed command chain followed by the settle
delay. -/
lemma initCommon_ok {opts : ModelOptions} {pf : Nat} {fail : Nat → Bool}
    {s s1 : DcsState} {m : Nat}
    (h : initCommon opts pf fail s = (.ok m, s1)) :
    m = madctlFrom opts ∧
      s1.events = s.events ++ (coreTrace opts pf ++ [.delay 120000]) := by
  unfold initCommon at h
  obtain ⟨t1, h1, h⟩ := stepThen_ok h
  obtain ⟨t2, h2, h⟩ := stepThen_ok h
  obtain ⟨t3, h3, h⟩ := stepThen_ok h
  obtain ⟨t4, h4, h⟩ := stepThen_ok h
  obtain ⟨t5, h5, h⟩ := stepThen_ok h
  obtain ⟨t6, h6, h⟩ := stepThen_ok h
  obtain ⟨t7, h7, h⟩ := stepThen_ok h
  obtain ⟨t8, h8, h⟩ := stepThen_ok h
  obtain ⟨t9, h9, h⟩ := stepThen_ok h
  obtain ⟨t10, h10, h⟩ := stepThen_ok h
  obtain ⟨t11, h11, h⟩ := stepThen_ok h
  obtain rfl := writeCommand_ok h1
  obtain rfl := writeCommand_ok h2
  obtain rfl := writeCommand_ok h3
  obtain rfl := writeCommand_ok h4
  obtain rfl := writeRaw_ok h5
  obtain rfl := writeRaw_ok h6
  obtain rfl := writeRaw_ok h7
  obtain rfl := writeRaw_ok h8
  obtain rfl := writeRaw_ok h9
  obtain rfl := writeCommand_ok h10
  obtain rfl := writeCommand_ok h11
  simp only [Prod.mk.injEq, Except.ok.injEq] at h
  obtain ⟨hm, hs⟩ := h
  refine ⟨hm.symm, ?_⟩
  rw [← hs]
  simp [delayUs, coreTrace, List.append_assoc]

/-- Characterization of a successful `init` run, for an arbitrary failure
oracle and any starting recorder state: the returned value is the MADCTL
derived from the options, and the events appended to the recorder are exactly
`initTrace`. -/
lemma init_ok {opts : ModelOptions} {hasRst pinOk : Bool} {fail : Nat → Bool}
    {s0 s1 : DcsState} {m : Nat}
    (h : init opts hasRst pinOk fail s0 = (.ok m, s1)) :
    m = madctlFrom opts ∧ s1.events = s0.events ++ initTrace opts hasRst := by
  unfold init at h
  obtain ⟨t, hr, h⟩ := stepThenI_ok h
  have hre := resetStep_ok hr
  have hc := initCommon_ok (liftInit_ok h)
  refine ⟨hc.1, ?_⟩
  rw [hc.2, initTrace, delayUs, hre]
  simp

/-- Number of dispatch attempts a complete `init` run makes: 11 command
writes after a hardware reset, 12 when the software-reset command is used. -/
def dispatchCount (hasRst : Bool) : Nat :=
  if hasRst then 11 else 12

/-- A successful run with an all-succeeding transport, from any starting
recorder state: `init` returns the derived MADCTL and appends `initTrace`. -/
lemma init_run_ok (opts : ModelOptions) (hasRst : Bool) (s : DcsState) :
    init opts hasRst true (fun _ => false) s =
      (.ok (madctlFrom opts),
        ⟨s.events ++ initTrace opts hasRst, s.nCmds + dispatchCount hasRst⟩) := by
  cases hasRst <;>
    simp [init, stepThenI, resetStep, hardReset, liftInit, writeCommand,
      writeRaw, delayUs, initCommon, stepThen, initTrace, resetTrace,
      coreTrace, dispatchCount]

/-- The identity of a command dispatch with its parameters erased: the
command's kind, or the opcode for a raw register write. -/
inductive CmdTag
  | softReset
  | exitSleepMode
  | setPixelFormat
  | setAddressMode
  | setInvertMode
  | enterNormalMode
  | setDisplayOn
  | writeMemoryStart
  | rawReg (opcode : Nat)
  | other
deriving DecidableEq, Repr

/-- Parameter-erasing projection of an event. -/
def tagOf : Event → CmdTag
  | .cmd .softReset => .softReset
  | .cmd .exitSleepMode => .exitSleepMode
  | .cmd (.setPixelFormat _) => .setPixelFormat
  | .cmd (.setAddressMode _) => .setAddressMode
  | .cmd (.setInvertMode _) => .setInvertMode
  | .cmd .enterNormalMode => .enterNormalMode
  | .cmd .setDisplayOn => .setDisplayOn
  | .cmd .writeMemoryStart => .writeMemoryStart
  | .raw op _ => .rawReg op
  | _ => .other

/-- The three initialization steps whose parameter bytes depend on the pixel
format or the caller options. -/
def isParamStep : CmdTag → Bool
  | .setPixelFormat => true
  | .setAddressMode => true
  | .setInvertMode => true
  | _ => false

/-- C1: every successful run of `init` emits its setup commands in exactly the
fixed documented order — reset handling first (the software-reset command when
no reset line is supplied), then sleep exit, pixel format, orientation, color
inversion, the 0xC5 and 0xB1 vendor tuning registers, the 0xE0 and 0xE1 gamma
tables, the 0xB6 auxiliary register, normal-display mode, and display-on, with
no other commands interleaved. -/
theorem init_command_order (opts : ModelOptions) (hasRst pinOk : Bool)
    (fail : Nat → Bool) (m : Nat) (s1 : DcsState)
    (h : init opts hasRst pinOk fail ⟨[], 0⟩ = (.ok m, s1)) :
    cmdEvents s1.events =
      (if hasRst then [] else [Event.cmd .softReset]) ++
      [.cmd .exitSleepMode, .cmd (.setPixelFormat pixelFormatRgb565),
       .cmd (.setAddressMode (madctlFrom opts)),
       .cmd (.setInvertMode opts.invertColors),
       .raw 0xc5 [0x00, 0x1e, 0x80, 0xb1], .raw 0xb1 [0xb0],
       .raw 0xe0 gammaPos, .raw 0xe1 gammaNeg, .raw 0xb6 [0x00, 0x42],
       .cmd .enterNormalMode, .cmd .setDisplayOn] := by
  rw [(init_ok h).2]
  cases hasRst <;>
    simp [cmdEvents, initTrace, resetTrace, coreTrace, isCmdEvent]

/-- C1 witness: a concrete successful run without a reset line. -/
theorem init_command_order_witness :
    cmdEvents (initTrace ⟨.deg0, false, false, .rgb⟩ false) =
      [Event.cmd .softReset, .cmd .exitSleepMode,
       .cmd (.setPixelFormat pixelFormatRgb565),
       .cmd (.setAddressMode (madctlFrom ⟨.deg0, false, false, .rgb⟩)),
       .cmd (.setInvertMode false),
       .raw 0xc5 [0x00, 0x1e, 0x80, 0xb1], .raw 0xb1 [0xb0],
       .raw 0xe0 gammaPos, .raw 0xe1 gammaNeg, .raw 0xb6 [0x00, 0x42],
       .cmd .enterNormalMode, .cmd .setDisplayOn] := by
  have h : init (⟨.deg0, false, false, .rgb⟩ : ModelOptions) false true
      (fun _ => false) ⟨[], 0⟩ =
      (.ok (madctlFrom ⟨.deg0, false, false, .rgb⟩),
        ⟨initTrace ⟨.deg0, false, false, .rgb⟩ false, 12⟩) := by rfl
  simpa using init_command_order _ false true (fun _ => false) _ _ h

/-- Whether an event is a reset-pin transition. -/
def isPinEvent : Event → Bool
  | .pinLow => true
  | .pinHigh => true
  | _ => false

/-- C4: with a reset line supplied, a successful `init` performs the hardware
reset through the line (exactly one low-then-high transition, before any
command) and never sends the software-reset command; without a reset line, the
software-reset command is sent and is the first command of the sequence. -/
theorem init_reset_choice (opts : ModelOptions) (hasRst pinOk : Bool)
    (fail : Nat → Bool) (m : Nat) (s1 : DcsState)
    (h : init opts hasRst pinOk fail ⟨[], 0⟩ = (.ok m, s1)) :
    (hasRst = true →
      Event.cmd .softReset ∉ s1.events ∧
      s1.events.take 3 = [.pinLow, .delay 10, .pinHigh] ∧
      s1.events.filter isPinEvent = [.pinLow, .pinHigh]) ∧
    (hasRst = false →
      (cmdEvents s1.events).head? = some (.cmd .softReset) ∧
      s1.events.filter isPinEvent = []) := by
  rw [(init_ok h).2]
  cases hasRst <;>
    simp [initTrace, resetTrace, coreTrace, cmdEvents, isCmdEvent, isPinEvent,
      gammaPos, gammaNeg]

/-- C4 witness: concrete runs with and without a reset line. -/
theorem init_reset_choice_witness :
    Event.cmd .softReset ∉ ([] : List Event) ++ initTrace ⟨.deg0, false, false, .rgb⟩ true ∧
    (([] : List Event) ++ initTrace ⟨.deg0, false, false, .rgb⟩ true).take 3 =
      [.pinLow, .delay 10, .pinHigh] ∧
    (([] : List Event) ++ initTrace ⟨.deg0, false, false, .rgb⟩ true).filter isPinEvent =
      [.pinLow, .pinHigh] := by
  have h : init (⟨.deg0, false, false, .rgb⟩ : ModelOptions) true true
      (fun _ => false) ⟨[], 0⟩ =
      (.ok (madctlFrom ⟨.deg0, false, false, .rgb⟩),
        ⟨[] ++ initTrace ⟨.deg0, false, false, .rgb⟩ true, 11⟩) := by rfl
  exact (init_reset_choice _ true true (fun _ => false) _ _ h).1 rfl

/-- C5: every successful `init` run performs a 120 000 µs settle delay right
after the reset step and before any further command, and a second 120 000 µs
settle delay after the display-on command as the final action before
returning; every event between the two delays is a command dispatch and the
last of them is display-on. -/
theorem init_settle_delays (opts : ModelOptions) (hasRst pinOk : Bool)
    (fail : Nat → Bool) (m : Nat) (s1 : DcsState)
    (h : init opts hasRst pinOk fail ⟨[], 0⟩ = (.ok m, s1)) :
    s1.events =
      resetTrace hasRst ++ [.delay 120000] ++
        coreTrace opts pixelFormatRgb565 ++ [.delay 120000] ∧
    (∀ e ∈ coreTrace opts pixelFormatRgb565, isCmdEvent e = true) ∧
    (coreTrace opts pixelFormatRgb565).getLast? = some (.cmd .setDisplayOn) := by
  refine ⟨?_, ?_, rfl⟩
  · rw [(init_ok h).2]
    simp [initTrace]
  · intro e he
    simp only [coreTrace, List.mem_cons, List.not_mem_nil, or_false] at he
    rcases he with rfl | rfl | rfl | rfl | rfl | rfl | rfl | rfl | rfl | rfl | rfl <;> rfl

/-- C5 witness: the concrete successful run without a reset line. -/
theorem init_settle_delays_witness :
    ([] : List Event) ++ initTrace ⟨.deg0, false, false, .rgb⟩ false =
      resetTrace false ++ [.delay 120000] ++
        coreTrace ⟨.deg0, false, false, .rgb⟩ pixelFormatRgb565 ++
        [.delay 120000] ∧
    (∀ e ∈ coreTrace (⟨.deg0, false, false, .rgb⟩ : ModelOptions)
        pixelFormatRgb565, isCmdEvent e = true) ∧
    (coreTrace (⟨.deg0, false, false, .rgb⟩ : ModelOptions)
        pixelFormatRgb565).getLast? = some (.cmd .setDisplayOn) := by
  have h : init (⟨.deg0, false, false, .rgb⟩ : ModelOptions) false true
      (fun _ => false) ⟨[], 0⟩ =
      (.ok (madctlFrom ⟨.deg0, false, false, .rgb⟩),
        ⟨[] ++ initTrace ⟨.deg0, false, false, .rgb⟩ false, 12⟩) := by rfl
  exact init_settle_delays _ false true (fun _ => false) _ _ h

/-- C7: a successful `init` returns exactly the Address/Orientation Mode value
derived deterministically from the caller options, and that same value is the
parameter written during the orientation (`SetAddressMode`) step. -/
theorem init_returns_madctl (opts : ModelOptions) (hasRst pinOk : Bool)
    (fail : Nat → Bool) (m : Nat) (s1 : DcsState)
    (h : init opts hasRst pinOk fail ⟨[], 0⟩ = (.ok m, s1)) :
    m = madctlFrom opts ∧ Event.cmd (.setAddressMode m) ∈ s1.events := by
  obtain ⟨rfl, he⟩ := init_ok h
  refine ⟨rfl, ?_⟩
  rw [he]
  cases hasRst <;> simp [initTrace, resetTrace, coreTrace]

/-- C7 witness: the concrete successful run without a reset line. -/
theorem init_returns_madctl_witness :
    madctlFrom (⟨.deg0, false, false, .rgb⟩ : ModelOptions) =
      madctlFrom ⟨.deg0, false, false, .rgb⟩ ∧
    Event.cmd (.setAddressMode (madctlFrom ⟨.deg0, false, false, .rgb⟩)) ∈
      ([] : List Event) ++ initTrace ⟨.deg0, false, false, .rgb⟩ false := by
  have h : init (⟨.deg0, false, false, .rgb⟩ : ModelOptions) false true
      (fun _ => false) ⟨[], 0⟩ =
      (.ok (madctlFrom ⟨.deg0, false, false, .rgb⟩),
        ⟨[] ++ initTrace ⟨.deg0, false, false, .rgb⟩ false, 12⟩) := by rfl
  exact init_returns_madctl _ false true (fun _ => false) _ _ h

/-- C8: in every successful `init` run, for every caller option value, the
auxiliary scan-direction register 0xB6 is written exactly with the hardcoded
parameter bytes `[0x00, 0x42]`, independent of rotation and mirror options. -/
theorem init_memory_access_fixed (opts : ModelOptions) (hasRst pinOk : Bool)
    (fail : Nat → Bool) (m : Nat) (s1 : DcsState)
    (h : init opts hasRst pinOk fail ⟨[], 0⟩ = (.ok m, s1)) :
    Event.raw 0xb6 [0x00, 0x42] ∈ s1.events ∧
      ∀ ps, Event.raw 0xb6 ps ∈ s1.events → ps = [0x00, 0x42] := by
  rw [(init_ok h).2]
  constructor
  · cases hasRst <;> simp [initTrace, resetTrace, coreTrace]
  · intro ps hps
    cases hasRst <;>
      simp [initTrace, resetTrace, coreTrace] at hps <;> exact hps

/-- C8 witness: the concrete successful run without a reset line. -/
theorem init_memory_access_fixed_witness :
    Event.raw 0xb6 [0x00, 0x42] ∈
      ([] : List Event) ++ initTrace ⟨.deg0, false, false, .rgb⟩ false ∧
    ∀ ps, Event.raw 0xb6 ps ∈
        ([] : List Event) ++ initTrace ⟨.deg0, false, false, .rgb⟩ false →
      ps = [0x00, 0x42] := by
  have h : init (⟨.deg0, false, false, .rgb⟩ : ModelOptions) false true
      (fun _ => false) ⟨[], 0⟩ =
      (.ok (madctlFrom ⟨.deg0, false, false, .rgb⟩),
        ⟨[] ++ initTrace ⟨.deg0, false, false, .rgb⟩ false, 12⟩) := by rfl
  exact init_memory_access_fixed _ false true (fun _ => false) _ _ h

/-- C6: two successful `init` runs with the same reset-line configuration but
any two caller option values emit the identical sequence of command
identities; the commands agree pairwise, with the full command value equal
except possibly at the pixel-format, orientation and inversion steps, whose
parameters alone may differ. -/
theorem init_options_noninterference (o1 o2 : ModelOptions)
    (hasRst pinOk1 pinOk2 : Bool) (f1 f2 : Nat → Bool) (m1 m2 : Nat)
    (s1 s2 : DcsState)
    (h1 : init o1 hasRst pinOk1 f1 ⟨[], 0⟩ = (.ok m1, s1))
    (h2 : init o2 hasRst pinOk2 f2 ⟨[], 0⟩ = (.ok m2, s2)) :
    (cmdEvents s1.events).map tagOf = (cmdEvents s2.events).map tagOf ∧
    List.Forall₂
      (fun a b => tagOf a = tagOf b ∧ (isParamStep (tagOf a) = false → a = b))
      (cmdEvents s1.events) (cmdEvents s2.events) := by
  rw [(init_ok h1).2, (init_ok h2).2]
  cases hasRst <;>
    constructor <;>
      simp [initTrace, resetTrace, coreTrace, cmdEvents, isCmdEvent, tagOf,
        isParamStep, List.forall₂_cons]

/-- C6 witness: two concrete runs with different rotation and inversion
options. -/
theorem init_options_noninterference_witness :
    (cmdEvents (([] : List Event) ++
        initTrace ⟨.deg0, false, false, .rgb⟩ false)).map tagOf =
      (cmdEvents (([] : List Event) ++
        initTrace ⟨.deg90, true, true, .bgr⟩ false)).map tagOf ∧
    List.Forall₂
      (fun a b => tagOf a = tagOf b ∧ (isParamStep (tagOf a) = false → a = b))
      (cmdEvents (([] : List Event) ++ initTrace ⟨.deg0, false, false, .rgb⟩ false))
      (cmdEvents (([] : List Event) ++ initTrace ⟨.deg90, true, true, .bgr⟩ false)) := by
  have h1 : init (⟨.deg0, false, false, .rgb⟩ : ModelOptions) false true
      (fun _ => false) ⟨[], 0⟩ =
      (.ok (madctlFrom ⟨.deg0, false, false, .rgb⟩),
        ⟨[] ++ initTrace ⟨.deg0, false, false, .rgb⟩ false, 12⟩) := by rfl
  have h2 : init (⟨.deg90, true, true, .bgr⟩ : ModelOptions) false true
      (fun _ => false) ⟨[], 0⟩ =
      (.ok (madctlFrom ⟨.deg90, true, true, .bgr⟩),
        ⟨[] ++ initTrace ⟨.deg90, true, true, .bgr⟩ false, 12⟩) := by rfl
  exact init_options_noninterference _ _ false true true
    (fun _ => false) (fun _ => false) _ _ _ _ h1 h2

/-- C9: running `init` twice in succession with the same options, reset-line
configuration and collaborator behaviour is deterministic: the second run
returns the same MADCTL value and appends to the recorder exactly the same
event sequence (opcodes and parameter bytes) as the first run. -/
theorem init_idempotent (opts : ModelOptions) (hasRst : Bool)
    (fail : Nat → Bool) (m1 m2 : Nat) (s1 s2 : DcsState)
    (h1 : init opts hasRst true fail ⟨[], 0⟩ = (.ok m1, s1))
    (h2 : init opts hasRst true fail s1 = (.ok m2, s2)) :
    m2 = m1 ∧ s2.events = s1.events ++ s1.events := by
  have a1 := init_ok h1
  have a2 := init_ok h2
  refine ⟨a2.1.trans a1.1.symm, ?_⟩
  rw [a2.2, a1.2]
  simp

/-- C9 witness: two concrete consecutive runs without a reset line. -/
theorem init_idempotent_witness :
    madctlFrom (⟨.deg0, false, false, .rgb⟩ : ModelOptions) =
      madctlFrom ⟨.deg0, false, false, .rgb⟩ ∧
    (⟨initTrace ⟨.deg0, false, false, .rgb⟩ false ++
        initTrace ⟨.deg0, false, false, .rgb⟩ false, 24⟩ : DcsState).events =
      (⟨initTrace ⟨.deg0, false, false, .rgb⟩ false, 12⟩ : DcsState).events ++
        (⟨initTrace ⟨.deg0, false, false, .rgb⟩ false, 12⟩ : DcsState).events := by
  have h1 : init (⟨.deg0, false, false, .rgb⟩ : ModelOptions) false true
      (fun _ => false) ⟨[], 0⟩ =
      (.ok (madctlFrom ⟨.deg0, false, false, .rgb⟩),
        ⟨initTrace ⟨.deg0, false, false, .rgb⟩ false, 12⟩) := by rfl
  have h2 : init (⟨.deg0, false, false, .rgb⟩ : ModelOptions) false true
      (fun _ => false) ⟨initTrace ⟨.deg0, false, false, .rgb⟩ false, 12⟩ =
      (.ok (madctlFrom ⟨.deg0, false, false, .rgb⟩),
        ⟨initTrace ⟨.deg0, false, false, .rgb⟩ false ++
          initTrace ⟨.deg0, false, false, .rgb⟩ false, 24⟩) := by rfl
  exact init_idempotent _ false (fun _ => false) _ _ _ _ h1 h2

/-- Each 16-bit value contributes exactly two payload bytes. -/
lemma beBytes16_length (vs : List Nat) : (beBytes16 vs).length = 2 * vs.length := by
  induction vs with
  | nil => rfl
  | cons v vs ih =>
    simp only [beBytes16, List.map_cons, List.flatten_cons, List.length_append,
      List.length_cons, List.length_nil, wireBytes] at *
    omega

/-- C2: a successful `write_pixels` run first sends the `WriteMemoryStart`
command and then a single data payload holding, for each pixel in input
order, the big-endian byte pair of its 16-bit storage value — exactly
`2 × N` payload bytes and no other command in between. -/
theorem write_pixels_stream (fail : Nat → Bool) (colors : List Rgb565)
    (s0 s1 : DcsState) (u : Unit)
    (h : writePixels fail colors s0 = (.ok u, s1)) :
    s1.events = s0.events ++
      [.cmd .writeMemoryStart,
       .data ((colors.map fun c => wireBytes (intoStorage c)).flatten)] ∧
    ((colors.map fun c => wireBytes (intoStorage c)).flatten).length =
      2 * colors.length := by
  unfold writePixels at h
  obtain ⟨s, h1, h2⟩ := stepThen_ok h
  obtain rfl := writeCommand_ok h1
  obtain rfl := sendData_ok h2
  constructor
  · simp [beBytes16, List.map_map, Function.comp_def]
  · have := beBytes16_length (colors.map intoStorage)
    simp only [beBytes16, List.map_map, List.length_map] at this
    simpa [Function.comp_def] using this

/-- C2 witness: a concrete two-pixel stream. -/
theorem write_pixels_stream_witness :
    (⟨[Event.cmd .writeMemoryStart,
        .data (([⟨31, 0, 0⟩, ⟨0, 63, 0⟩] : List Rgb565).map
          (fun c => wireBytes (intoStorage c))).flatten], 2⟩ : DcsState).events =
      ([] : List Event) ++
        [.cmd .writeMemoryStart,
         .data (([⟨31, 0, 0⟩, ⟨0, 63, 0⟩] : List Rgb565).map
           (fun c => wireBytes (intoStorage c))).flatten] ∧
    ((([⟨31, 0, 0⟩, ⟨0, 63, 0⟩] : List Rgb565).map
        (fun c => wireBytes (intoStorage c))).flatten).length =
      2 * ([⟨31, 0, 0⟩, ⟨0, 63, 0⟩] : List Rgb565).length := by
  have h : writePixels (fun _ => false) ([⟨31, 0, 0⟩, ⟨0, 63, 0⟩] : List Rgb565)
      ⟨[], 0⟩ =
      (.ok (),
        ⟨[Event.cmd .writeMemoryStart,
          .data (([⟨31, 0, 0⟩, ⟨0, 63, 0⟩] : List Rgb565).map
            (fun c => wireBytes (intoStorage c))).flatten], 2⟩) := by rfl
  exact write_pixels_stream (fun _ => false) _ _ _ () h

/-- C10: `write_pixels` on an empty pixel sequence still unconditionally sends
the `WriteMemoryStart` command, follows it with an empty data payload, and
returns success when the transport operations succeed. -/
theorem write_pixels_empty (fail : Nat → Bool) (s0 : DcsState)
    (h0 : fail s0.nCmds = false) (h1 : fail (s0.nCmds + 1) = false) :
    writePixels fail [] s0 =
      (.ok (), ⟨s0.events ++ [.cmd .writeMemoryStart, .data []], s0.nCmds + 2⟩) := by
  simp [writePixels, stepThen, writeCommand, sendData, beBytes16, h0, h1]

/-- C10 witness: the concrete empty-sequence run on an all-succeeding
transport. -/
theorem write_pixels_empty_witness :
    (fun _ : Nat => false) (DcsState.mk [] 0).nCmds = false ∧
    writePixels (fun _ => false) [] ⟨[], 0⟩ =
      (.ok (), ⟨([] : List Event) ++ [.cmd .writeMemoryStart, .data []],
        (DcsState.mk [] 0).nCmds + 2⟩) :=
  ⟨rfl, write_pixels_empty (fun _ => false) ⟨[], 0⟩ rfl rfl⟩

/-- Number of trace events emitted strictly before dispatch attempt `k` of
`init`: the reset-pin events and both settle-delay positions that precede it. -/
def eventCountBeforeDispatch (hasRst : Bool) (k : Nat) : Nat :=
  if hasRst then k + 4 else if k = 0 then 0 else k + 1

/-- C3: a reset-line failure makes `init` return the distinct `resetPin` error
with nothing sent; a transport failure at dispatch step `k` makes `init`
return `commandFailure` immediately, with the recorded trace exactly the
prefix of the successful trace that precedes step `k` — so exactly `k`
commands and no further commands or delays are issued, and there is no
partial-success return value. -/
theorem init_fail_fast (opts : ModelOptions) :
    (∀ fail s0, init opts true false fail s0 = (.error .resetPin, s0)) ∧
    (∀ hasRst k, k < dispatchCount hasRst →
      init opts hasRst true (fun i => i == k) ⟨[], 0⟩ =
        (.error .commandFailure,
          ⟨(initTrace opts hasRst).take (eventCountBeforeDispatch hasRst k),
           k + 1⟩) ∧
      (cmdEvents ((initTrace opts hasRst).take
          (eventCountBeforeDispatch hasRst k))).length = k) := by
  constructor
  · intro fail s0
    simp [init, stepThenI, resetStep, hardReset]
  · intro hasRst k hk
    cases hasRst with
    | false =>
      simp only [dispatchCount, Bool.false_eq_true, if_false] at hk
      interval_cases k <;> exact ⟨rfl, rfl⟩
    | true =>
      simp only [dispatchCount, if_true] at hk
      interval_cases k <;> exact ⟨rfl, rfl⟩

/-- C3 witness: a reset-pin failure and an induced transport failure at
dispatch step 2 of the software-reset path. -/
theorem init_fail_fast_witness :
    init ⟨.deg0, false, false, .rgb⟩ true false (fun _ => false) ⟨[], 0⟩ =
      (.error .resetPin, ⟨[], 0⟩) ∧
    2 < dispatchCount false ∧
    init ⟨.deg0, false, false, .rgb⟩ false true (fun i => i == 2) ⟨[], 0⟩ =
      (.error .commandFailure,
        ⟨(initTrace ⟨.deg0, false, false, .rgb⟩ false).take
            (eventCountBeforeDispatch false 2), 3⟩) ∧
    (cmdEvents ((initTrace ⟨.deg0, false, false, .rgb⟩ false).take
        (eventCountBeforeDispatch false 2))).length = 2 :=
  ⟨(init_fail_fast _).1 (fun _ => false) ⟨[], 0⟩, by decide,
   ((init_fail_fast _).2 false 2 (by decide)).1,
   ((init_fail_fast _).2 false 2 (by decide)).2⟩

end Mipidsi
